import Mathlib

/-!
# Verification of the xtquantai tool-dispatch core

Shallow embedding of `src/xtquantai/server.py` (the tool-dispatch core of the
xtquantai MCP server): the lazy initialization guard `ensure_xtdc_initialized`,
the tool handlers (`get_trading_dates`, `get_stock_list`, `get_instrument_detail`,
`get_history_market_data`, `get_latest_market_data`, `get_full_market_data`,
`create_chart_panel`, `create_custom_layout`) and the request dispatcher
`handle_call_tool`.

The backing data service (the `xtdata` module, real or mock) is modelled as an
abstract `Backend` record of capabilities; `hasAttr` models Python `hasattr`
probing and each capability returns `Except String _` (the `.error` case models
the Python call raising an exception with that message).  Every embedded handler
threads a `SrvState` holding the module-level `xtdc_initialized` flag and a
trace of backend invocations, so that "the backend was (not) invoked" is a
statement about the trace.

Modelling notes (each is a deliberate abstraction of behaviour no claim
depends on):
* wall-clock values (`time.time()` deltas, `time.sleep(0.5)`) are not modelled;
  the `time_taken` entry of a method-result record is rendered as `null`;
* the environment snapshot (`sys.version`, `os.getpid()`, ...) collected into
  `env_info` is modelled as an opaque placeholder value;
* `json.dumps` text formatting is abstracted by a simple renderer `jsonDumps`;
  no claim inspects the serialized text of a success payload;
* numpy arrays inside backend market data are modelled as plain lists: the
  source converts them with `values.tolist()` or `list(values)`, both of which
  yield the plain list of elements;
* the `xtdata is None` guards in the handlers are dead code in the source
  (the module-loading block always assigns either the real module or a
  `MockXtdata` instance), and are not modelled;
* pydantic v2 rejects non-string input for a `str`-typed model field, so
  constructing an input model from a non-string argument raises; this is
  modelled as the dispatcher failing with a `ValidationError` message.
  Calling `.split` on a non-string argument raises `AttributeError` before the
  model is constructed, modelled the same way with an `AttributeError` message.
-/

set_option autoImplicit false

namespace XTQuantAI

/-- A Python value, as produced and consumed by the handlers.  `float` carries
a rational: the only floats the embedded code produces come from parsing
decimal literals, on which no arithmetic is performed. -/
inductive PyVal where
  | str (s : String)
  | int (i : Int)
  | float (q : Rat)
  | bool (b : Bool)
  | none
  | list (xs : List PyVal)
  | dict (kvs : List (String × PyVal))

/-- A value of a tool-call argument (a JSON scalar).  `int` stands for any
non-string, non-boolean JSON value a caller may pass. -/
inductive ArgVal where
  | str (s : String)
  | bool (b : Bool)
  | int (i : Int)
deriving DecidableEq

/-- The arguments mapping of a tool call. -/
abbrev Args := List (String × ArgVal)

/-- One element of the sequence returned by the backend for trading dates:
either a Python `int`, or an object with an optional `strftime`-style
formatting capability (`strftime = some s` means `date.strftime("%Y-%m-%d")`
returns `s`; `none` means the attribute is missing, so using it raises
`AttributeError`) and a plain `str(date)` rendering. -/
inductive DateEntry where
  | int (i : Int)
  | obj (strftime : Option String) (strRepr : String)
deriving DecidableEq

/-- Market data as returned by the backend `get_market_data`:
per code, per field, a series of values. -/
abbrev MarketData := List (String × List (String × List PyVal))

/-- An observable invocation of a backend (`xtdata`) method.  `startTime`,
`endTime` and `count` are `none` when the Python call site does not pass the
corresponding keyword argument. -/
inductive CallEvent where
  | startXtdata
  | getTradingDates (market : String)
  | getStockListInSector (sector : String)
  | getInstrumentDetail (code : String) (iscomplete : Bool)
  | getMarketData (fields codes : List String) (period : String)
      (startTime endTime : Option String) (count : Option Int)
  | panelMethod (name : String)
  | refreshUi
deriving DecidableEq

/-- Mutable process state of the server module: the `xtdc_initialized` global
flag, plus the accumulated trace of backend invocations. -/
structure SrvState where
  initialized : Bool
  trace : List CallEvent
deriving DecidableEq

/-- The abstract backing data service (`xtdata`, real or mock).  `hasAttr`
models `hasattr(xtdata, ·)`; a capability returning `.error e` models the
Python call raising an exception whose `str` is `e`; a `.ok Option.none`
result models the Python call returning `None`. -/
structure Backend where
  hasAttr : String → Bool
  /-- whether `xtdata.start_xtdata()` raises (only consulted when
  `hasAttr "start_xtdata"` is true) -/
  startRaises : Bool
  tradingDates : String → Except String (Option (List DateEntry))
  stockListInSector : String → Except String (Option (List String))
  instrumentDetail : String → Bool → Except String (Option (List (String × PyVal)))
  marketData : List String → List String → String → Option String → Option String →
      Option Int → Except String (Option MarketData)
  /-- outcome of calling the panel-control method of the given name with the
  panel list: `.ok r` is the `str()` of the returned value, `.error e` a raised
  exception (only consulted when `hasAttr name` is true) -/
  panelCall : String → Except String String
  /-- outcome of `xtdata.refresh_ui()` (only consulted when present) -/
  refreshUi : Except String Unit

/-- Append one backend-invocation event to the trace. -/
def SrvState.log (s : SrvState) (e : CallEvent) : SrvState :=
  { s with trace := s.trace ++ [e] }

/--
`ensure_xtdc_initialized` (server.py:122).
```
global xtdc_initialized
if not xtdc_initialized:
    try:
        if hasattr(xtdata, 'start_xtdata'):
            xtdata.start_xtdata()
        xtdc_initialized = True
    except Exception as e:
        print(...)
```
Note: if `start_xtdata()` raises, the assignment `xtdc_initialized = True` is
skipped, so the guard stays unset; the `except` swallows the exception, so the
function itself never raises (it is total here). -/
def ensure_xtdc_initialized (b : Backend) (s : SrvState) : SrvState :=
  if s.initialized then s
  else if b.hasAttr "start_xtdata" then
    let s' := s.log .startXtdata
    if b.startRaises then s' else { s' with initialized := true }
  else { s with initialized := true }

/-- `ensure_xtdc_initialized` iterated `n` times from state `s`. -/
def ensureTimes (b : Backend) (s : SrvState) : Nat → SrvState
  | 0 => s
  | n + 1 => ensureTimes b (ensure_xtdc_initialized b s) n

/-- Number of `start_xtdata` invocations recorded in a trace. -/
def countStart (l : List CallEvent) : Nat :=
  (l.filter fun e => e = .startXtdata).length

/-!
### String primitives

Python string operations are implemented here over `String.data` (the
underlying character list) by structural recursion, so that every embedded
function evaluates inside the kernel; each is a direct implementation of the
corresponding Python operation.
-/

/-- Split a character list at every occurrence of `c` (Python
`s.split(sep)` with a one-character separator; every call site of the source
splits on `","` or checks `"."`). -/
def splitChar (c : Char) : List Char → List (List Char)
  | [] => [[]]
  | x :: xs =>
    match splitChar c xs with
    | [] => if x = c then [[], []] else [[x]]
    | y :: ys => if x = c then [] :: y :: ys else (x :: y) :: ys

/-- Python `s.split(c)` for a one-character separator. -/
def pySplitChar (s : String) (c : Char) : List String :=
  (splitChar c s.data).map String.mk

/-- Python `s.strip()`: remove leading and trailing whitespace (ASCII
whitespace; Python also strips some rarer Unicode spaces, which no claim
involves). -/
def pyStrip (s : String) : String :=
  ⟨((s.data.dropWhile Char.isWhitespace).reverse.dropWhile Char.isWhitespace).reverse⟩

/-- Python `c in s` for a one-character needle. -/
def pyContains (s : String) (c : Char) : Bool :=
  s.data.any fun x => x = c

/-- Python `s.isdigit()` (ASCII digits; exotic Unicode digits not
modelled). -/
def pyIsDigit (s : String) : Bool :=
  !s.data.isEmpty && s.data.all Char.isDigit

/-- Python `int(s)` for a string of decimal digits (helper for
`parseInt?`). -/
def pyToNat? (s : String) : Option Nat :=
  if pyIsDigit s then
    some (s.data.foldl (fun a c => a * 10 + (c.toNat - '0'.toNat)) 0)
  else Option.none

/-- Python `s.lower()` (ASCII case folding). -/
def pyLower (s : String) : String :=
  ⟨s.data.map Char.toLower⟩

/-- Whether the first character of `s` is `c`. -/
def headIs (s : String) (c : Char) : Bool :=
  match s.data with
  | x :: _ => x = c
  | [] => false

/-- Python `[tok.strip() for tok in s.split(",") if tok.strip()]`:
comma-split, trim, drop empties. -/
def parseCommaList (s : String) : List String :=
  ((pySplitChar s ',').map pyStrip).filter fun t => t ≠ ""

/-- The "looks like an instrument code" filter of `get_latest_market_data` and
`get_full_market_data`: `"." in code and len(code) >= 6`. -/
def looksLikeCode (c : String) : Bool :=
  pyContains c '.' && decide (6 ≤ c.length)

/-- The fixed OHLCV field set. -/
def defaultFields : List String := ["open", "high", "low", "close", "volume"]

/-- `str(date)` / `str(value)` for an integer (Lean's rendering of `Int`
coincides with Python's `str` on `int`: decimal digits with a leading `-`
for negatives). -/
def pyIntStr (i : Int) : String := toString i

/-- Formatting of one trading-date entry (server.py:672-686): an `int` whose
`str` has exactly 8 characters is reformatted `YYYY-MM-DD`; any other `int` is
stringified; a non-`int` is formatted with `strftime` when that attribute
exists, else stringified. -/
def formatTradingDate : DateEntry → String
  | .int i =>
    let ds := pyIntStr i
    if ds.length = 8 then ds.take 4 ++ "-" ++ (ds.drop 4).take 2 ++ "-" ++ ds.drop 6
    else ds
  | .obj (some f) _ => f
  | .obj Option.none r => r

/--
`get_trading_dates` handler (server.py:641).  Returns the result list and the
updated state.  `trading_dates[-30:] if len(trading_dates) > 30 else
trading_dates` is exactly `drop (length - 30)` (Nat subtraction truncates at
0, covering the `len <= 30` branch). -/
def get_trading_dates (b : Backend) (s : SrvState) (market : String) :
    List String × SrvState :=
  let s := ensure_xtdc_initialized b s
  let s := s.log (.getTradingDates market)
  match b.tradingDates market with
  | .error e => (["错误: " ++ e], s)
  | .ok Option.none => (["未找到交易日期数据"], s)
  | .ok (some dates) =>
    if dates.length = 0 then (["未找到交易日期数据"], s)
    else
      let recent := dates.drop (dates.length - 30)
      (recent.map formatTradingDate, s)

/-- `get_stock_list` handler (server.py:694).  `stock_list[:50] if
len(stock_list) > 50 else stock_list` is exactly `take 50`. -/
def get_stock_list (b : Backend) (s : SrvState) (sector : String) :
    List String × SrvState :=
  let s := ensure_xtdc_initialized b s
  let s := s.log (.getStockListInSector sector)
  match b.stockListInSector sector with
  | .error e => (["错误: " ++ e], s)
  | .ok Option.none => (["未找到板块 " ++ sector ++ " 的股票列表"], s)
  | .ok (some l) =>
    if l.length = 0 then (["未找到板块 " ++ sector ++ " 的股票列表"], s)
    else (l.take 50, s)

/-- Quote a string for the JSON renderer (escaping abstracted; no claim
inspects serialized text). -/
def quoteStr (s : String) : String := "\"" ++ s ++ "\""

mutual

/-- A simple JSON rendering of a `PyVal`, standing in for
`json.dumps(result, ensure_ascii=False, indent=2)`.  Only the fact that the
dispatcher wraps each handler result into exactly one text item depends on
this; the exact text is never inspected by a claim. -/
def jsonDumps : PyVal → String
  | .str s => quoteStr s
  | .int i => pyIntStr i
  | .float q => toString q
  | .bool b => if b then "true" else "false"
  | .none => "null"
  | .list xs => "[" ++ String.intercalate ", " (jsonDumpsList xs) ++ "]"
  | .dict kvs => "\x7b" ++ String.intercalate ", " (jsonDumpsDict kvs) ++ "\x7d"

def jsonDumpsList : List PyVal → List String
  | [] => []
  | x :: xs => jsonDumps x :: jsonDumpsList xs

def jsonDumpsDict : List (String × PyVal) → List String
  | [] => []
  | (k, v) :: xs => (quoteStr k ++ ": " ++ jsonDumps v) :: jsonDumpsDict xs

end

/-- `str(value)` for a handler-level value (Python `repr`-style formatting of
containers abstracted; only scalar pass-through matters to the claims). -/
def pyStr (v : PyVal) : String := jsonDumps v

/-- Field conversion of `get_instrument_detail` (server.py:757-762):
`isinstance(value, (str, int, float, bool, type(None)))` passes through,
everything else is stringified. -/
def scalarizeDetailVal : PyVal → PyVal
  | .str s => .str s
  | .int i => .int i
  | .float q => .float q
  | .bool b => .bool b
  | .none => .none
  | .list xs => .str (pyStr (.list xs))
  | .dict kvs => .str (pyStr (.dict kvs))

/-- `get_instrument_detail` handler (server.py:728). -/
def get_instrument_detail (b : Backend) (s : SrvState) (code : String)
    (iscomplete : Bool) : PyVal × SrvState :=
  let s := ensure_xtdc_initialized b s
  let s := s.log (.getInstrumentDetail code iscomplete)
  match b.instrumentDetail code iscomplete with
  | .error e => (.dict [("error", .str e)], s)
  | .ok Option.none =>
    (.dict [("message", .str ("未找到股票代码 " ++ code ++ " 的详细信息"))], s)
  | .ok (some kvs) =>
    (.dict (kvs.map fun kv => (kv.1, scalarizeDetailVal kv.2)), s)

/-- The `GetMarketDataInput` pydantic model (server.py:154): all `str` fields,
with defaults `period="1d"`, `start_date=""`, `end_date=""`, `fields=""`. -/
structure MDInput where
  codes : String
  period : String
  start_date : String
  end_date : String
  fields : String

/-- Conversion of a backend market-data mapping to a serializable dict
(server.py:821-830); numpy arrays and sequences both become plain lists,
which the model already carries. -/
def convertMarketData (data : MarketData) : PyVal :=
  .dict (data.map fun cd => (cd.1, .dict (cd.2.map fun fv => (fv.1, .list fv.2))))

/-- The parsed `fields` of a market-data request: comma-split and trimmed,
defaulting to the OHLCV set when nothing remains (server.py:800-806). -/
def parseFields (fields : String) : List String :=
  let fs := if fields ≠ "" then parseCommaList fields else []
  if fs.isEmpty then defaultFields else fs

/-- `get_history_market_data` handler (server.py:771).  No code filtering; the
backend call passes `start_time`/`end_time` but no `count` keyword. -/
def get_history_market_data (b : Backend) (s : SrvState) (inp : MDInput) :
    PyVal × SrvState :=
  let s := ensure_xtdc_initialized b s
  let codes := parseCommaList inp.codes
  if codes.isEmpty then (.dict [("error", .str "未提供有效的股票代码")], s)
  else
    let fields := parseFields inp.fields
    let s := s.log (.getMarketData fields codes inp.period
      (some inp.start_date) (some inp.end_date) Option.none)
    match b.marketData fields codes inp.period
        (some inp.start_date) (some inp.end_date) Option.none with
    | .error e => (.dict [("error", .str ("获取历史行情数据失败: " ++ e))], s)
    | .ok Option.none => (.dict [("error", .str "获取历史行情数据失败")], s)
    | .ok (some data) => (convertMarketData data, s)

/-- `get_latest_market_data` handler (server.py:842).  Applies the
`looksLikeCode` filter, then queries the fixed OHLCV field set with `count=1`
(no `start_time`/`end_time` keywords) regardless of any caller fields. -/
def get_latest_market_data (b : Backend) (s : SrvState) (inp : MDInput) :
    PyVal × SrvState :=
  let s := ensure_xtdc_initialized b s
  let codes := parseCommaList inp.codes
  if codes.isEmpty then (.dict [("error", .str "未提供有效的股票代码")], s)
  else
    let valid_codes := codes.filter looksLikeCode
    if valid_codes.isEmpty then (.dict [("error", .str "未提供有效的股票代码")], s)
    else
      let s := s.log (.getMarketData defaultFields valid_codes inp.period
        Option.none Option.none (some 1))
      match b.marketData defaultFields valid_codes inp.period
          Option.none Option.none (some 1) with
      | .error e => (.dict [("error", .str ("获取最新行情数据失败: " ++ e))], s)
      | .ok Option.none => (.dict [("error", .str "获取最新行情数据失败")], s)
      | .ok (some data) => (convertMarketData data, s)

/-- `get_full_market_data` handler (server.py:910).  Applies the
`looksLikeCode` filter and passes `count=-1`. -/
def get_full_market_data (b : Backend) (s : SrvState) (inp : MDInput) :
    PyVal × SrvState :=
  let s := ensure_xtdc_initialized b s
  let codes := parseCommaList inp.codes
  if codes.isEmpty then (.dict [("error", .str "未提供有效的股票代码")], s)
  else
    let valid_codes := codes.filter looksLikeCode
    if valid_codes.isEmpty then (.dict [("error", .str "未提供有效的股票代码")], s)
    else
      let fields := parseFields inp.fields
      let s := s.log (.getMarketData fields valid_codes inp.period
        (some inp.start_date) (some inp.end_date) (some (-1)))
      match b.marketData fields valid_codes inp.period
          (some inp.start_date) (some inp.end_date) (some (-1)) with
      | .error e => (.dict [("error", .str ("获取历史+最新行情数据失败: " ++ e))], s)
      | .ok Option.none => (.dict [("error", .str "获取历史+最新行情数据失败")], s)
      | .ok (some data) => (convertMarketData data, s)

/-- Indicator parameter parsing of `create_chart_panel` (server.py:1031):
`int(p.strip()) if p.strip().isdigit() else p.strip()` over the non-empty
trimmed comma-split tokens. -/
def parseIndicatorParams (params : String) : List PyVal :=
  (pySplitChar params ',').filterMap fun p =>
    let t := pyStrip p
    if t = "" then Option.none
    else if pyIsDigit t then some (.int ((pyToNat? t).getD 0))
    else some (.str t)

/-- Indicator configuration of `create_chart_panel` (server.py:1035-1060):
`ma` enumerates parameters as `n1..nK`; `macd`/`kdj` take fixed-name triples
when at least 3 parameters are given, else empty defaults; any other name gets
an empty parameter set. -/
def chartIndicatorConfig (indicators : String) (ps : List PyVal) :
    List (String × PyVal) :=
  if indicators = "ma" then
    [("ma", .dict (ps.enum.map fun ip => ("n" ++ toString (ip.1 + 1), ip.2)))]
  else if indicators = "macd" then
    match ps with
    | p0 :: p1 :: p2 :: _ =>
      [("macd", .dict [("short", p0), ("long", p1), ("mid", p2)])]
    | _ => [("macd", .dict [])]
  else if indicators = "kdj" then
    match ps with
    | p0 :: p1 :: p2 :: _ =>
      [("kdj", .dict [("n", p0), ("m1", p1), ("m2", p2)])]
    | _ => [("kdj", .dict [])]
  else [(indicators, .dict [])]

/-- Python `int(s)` on an already-stripped token: optional sign followed by
decimal digits (underscore separators and other exotic forms not modelled). -/
def parseInt? (s : String) : Option Int :=
  if headIs s '-' then (pyToNat? (s.drop 1)).map fun n => -(n : Int)
  else if headIs s '+' then (pyToNat? (s.drop 1)).map fun n => (n : Int)
  else (pyToNat? s).map fun n => (n : Int)

/-- Python `float(s)` on an already-stripped token containing a `.`:
optional sign, decimal digits around one dot, at least one digit
(exponent notation and other exotic forms not modelled). -/
def parseFloat? (s : String) : Option Rat :=
  let core : String → Option Rat := fun body =>
    match pySplitChar body '.' with
    | [ip, fp] =>
      if ip = "" ∧ fp = "" then Option.none
      else if (ip = "" ∨ ip.data.all Char.isDigit) ∧ (fp = "" ∨ fp.data.all Char.isDigit) then
        some ((((pyToNat? ip).getD 0 : Nat) : Rat) +
          (((pyToNat? fp).getD 0 : Nat) : Rat) / (10 ^ fp.length : Rat))
      else Option.none
    | _ => Option.none
  if headIs s '-' then (core (s.drop 1)).map fun q => -q
  else if headIs s '+' then core (s.drop 1)
  else core s

/-- Parameter-value parsing of `create_custom_layout` (server.py:1243-1253):
for each token whose trimmed form is non-empty, try `float` when the raw token
contains `.`, else try `int`; on `ValueError` keep the trimmed string. -/
def parseParamValues (s : String) : List PyVal :=
  (pySplitChar s ',').filterMap fun v =>
    if pyStrip v = "" then Option.none
    else if pyContains v '.' then
      match parseFloat? (pyStrip v) with
      | some q => some (.float q)
      | Option.none => some (.str (pyStrip v))
    else
      match parseInt? (pyStrip v) with
      | some i => some (.int i)
      | Option.none => some (.str (pyStrip v))

/-- Python dict insertion: update an existing key in place, else append. -/
def upsert (l : List (String × PyVal)) (k : String) (v : PyVal) :
    List (String × PyVal) :=
  if l.any fun kv => kv.1 = k then
    l.map fun kv => if kv.1 = k then (k, v) else kv
  else l ++ [(k, v)]

/-- Indicator parameter mapping of `create_custom_layout` (server.py:1256-1259):
zip names against values into a dict (names without a corresponding value are
dropped by `zip`; the `i < len(param_values)` guard in the source is always
true inside the zip). -/
def customIndicatorParams (names : List String) (values : List PyVal) :
    List (String × PyVal) :=
  (names.zip values).foldl (fun acc kv => upsert acc kv.1 kv.2) []

/-- Recorded outcome of one entry of `method_results`. -/
inductive MethodOutcome where
  | ok (r : String)
  | err (e : String)
  | notPresent
  | flagTrue
  | called
deriving DecidableEq

/-- The ordered fallback list of alternative panel-control method names
(server.py:1124). -/
def possible_methods : List String :=
  ["apply_panel_control", "create_panel", "show_panel", "display_panel"]

/-- The fallback loop over alternative method names (server.py:1125-1146): for
each name present on the backend, invoke it; a successful call records its
result and breaks; a raising call records the error and continues with the
next name; when the loop finishes without a break (the `for`-`else`),
`no_method_found` is recorded.  Returns the recorded entries and the
invocation events. -/
def fallbackLoop (b : Backend) :
    List String → List (String × MethodOutcome) × List CallEvent
  | [] => ([("no_method_found", .flagTrue)], [])
  | m :: rest =>
    if b.hasAttr m then
      match b.panelCall m with
      | .ok r => ([(m, .ok r)], [.panelMethod m])
      | .error e =>
        let (l, evs) := fallbackLoop b rest
        ((m, .err e) :: l, .panelMethod m :: evs)
    else fallbackLoop b rest

/-- Panel-control application (server.py:1102-1146): invoke
`apply_ui_panel_control` when present (recording its result or error);
otherwise record its absence and run the fallback loop. -/
def applyPanelMethods (b : Backend) :
    List (String × MethodOutcome) × List CallEvent :=
  if b.hasAttr "apply_ui_panel_control" then
    match b.panelCall "apply_ui_panel_control" with
    | .ok r => ([("apply_ui_panel_control", .ok r)], [.panelMethod "apply_ui_panel_control"])
    | .error e => ([("apply_ui_panel_control", .err e)], [.panelMethod "apply_ui_panel_control"])
  else
    let (l, evs) := fallbackLoop b possible_methods
    (("apply_ui_panel_control", .notPresent) :: l, evs)

/-- Best-effort UI refresh (server.py:1149-1156): when `refresh_ui` is
present, invoke it and record `called` or the error; when absent, record
nothing. -/
def refreshStep (b : Backend) :
    List (String × MethodOutcome) × List CallEvent :=
  if b.hasAttr "refresh_ui" then
    match b.refreshUi with
    | .ok _ => ([("refresh_ui", .called)], [.refreshUi])
    | .error e => ([("refresh_ui", .err e)], [.refreshUi])
  else ([], [])

/-- Rendering of one `method_results` entry as the Python dict the source
builds (`time_taken` wall-clock values rendered as `null`). -/
def methodOutcomeToPy : MethodOutcome → PyVal
  | .ok r => .dict [("result", .str r), ("time_taken", .none)]
  | .err e => .dict [("error", .str e)]
  | .notPresent => .dict [("exists", .bool false)]
  | .flagTrue => .bool true
  | .called => .dict [("called", .bool true)]

/-- Opaque placeholder for the `env_info` environment snapshot
(`sys.version`, `os.getpid()`, ... — not modelable and inspected by no
claim). -/
def envInfoModel : PyVal := .str "<environment snapshot>"

/-- One `panel_info` entry (server.py:1073-1079).  The `UIPanel` constructor
defined in this source never raises, so the dict-substitute branch
(server.py:1084-1097) is unreachable and the `panel_type` is always the
`UIPanel` class. -/
def panelInfoEntry (period : String) (config : List (String × PyVal))
    (stock : String) : PyVal :=
  .dict [("stock", .str stock), ("period", .str period),
         ("figures", .str (pyStr (.dict config))),
         ("panel_type", .str "UIPanel"),
         ("panel_str", .str ("UIPanel(stock=" ++ stock ++ ", period=" ++ period ++
            ", figures=" ++ pyStr (.list [.dict config]) ++ ")"))]

/-- The `CreateChartPanelInput` pydantic model (server.py:162). -/
structure ChartInput where
  codes : String
  period : String
  indicators : String
  params : String

/-- `create_chart_panel` handler (server.py:991).  The `time.sleep(0.5)`
settle delay has no observable effect on the modelled state. -/
def create_chart_panel (b : Backend) (s : SrvState) (inp : ChartInput) :
    PyVal × SrvState :=
  let s := ensure_xtdc_initialized b s
  let stock_list := parseCommaList inp.codes
  if stock_list.isEmpty then
    (.dict [("error", .str "未提供有效的股票代码"), ("env_info", envInfoModel)], s)
  else
    let ps := parseIndicatorParams inp.params
    let config := chartIndicatorConfig inp.indicators ps
    let panel_info := stock_list.map (panelInfoEntry inp.period config)
    let (mr1, evs1) := applyPanelMethods b
    let (mr2, evs2) := refreshStep b
    let mr := mr1 ++ mr2
    let s := { s with trace := s.trace ++ evs1 ++ evs2 }
    (.dict [("success", .bool true),
            ("message", .str ("已成功创建 " ++ toString stock_list.length ++ " 个图表面板")),
            ("details", .dict [("stocks", .list (stock_list.map .str)),
                               ("period", .str inp.period),
                               ("indicator", .str inp.indicators),
                               ("parameters", .list ps)]),
            ("debug_info", .dict [("env_info", envInfoModel),
                                  ("panel_info", .list panel_info),
                                  ("method_results", .dict (mr.map fun kv =>
                                    (kv.1, methodOutcomeToPy kv.2)))])], s)

/-- The `CreateCustomLayoutInput` pydantic model (server.py:169). -/
structure CustomLayoutInput where
  codes : String
  period : String
  indicator_name : String
  param_names : String
  param_values : String

/-- `create_custom_layout` handler (server.py:1199).  Identical panel/apply
machinery to `create_chart_panel`, with the zipped name/value parameter
mapping. -/
def create_custom_layout (b : Backend) (s : SrvState) (inp : CustomLayoutInput) :
    PyVal × SrvState :=
  let s := ensure_xtdc_initialized b s
  let stock_list := parseCommaList inp.codes
  if stock_list.isEmpty then
    (.dict [("error", .str "未提供有效的股票代码"), ("env_info", envInfoModel)], s)
  else
    let param_names := parseCommaList inp.param_names
    let param_values := parseParamValues inp.param_values
    let indicator_params := customIndicatorParams param_names param_values
    let config := [(inp.indicator_name, PyVal.dict indicator_params)]
    let panel_info := stock_list.map (panelInfoEntry inp.period config)
    let (mr1, evs1) := applyPanelMethods b
    let (mr2, evs2) := refreshStep b
    let mr := mr1 ++ mr2
    let s := { s with trace := s.trace ++ evs1 ++ evs2 }
    (.dict [("success", .bool true),
            ("message", .str ("已成功创建 " ++ toString stock_list.length ++ " 个自定义布局面板")),
            ("details", .dict [("stocks", .list (stock_list.map .str)),
                               ("period", .str inp.period),
                               ("indicator", .str inp.indicator_name),
                               ("parameter_names", .list (param_names.map .str)),
                               ("parameter_values", .list param_values)]),
            ("debug_info", .dict [("env_info", envInfoModel),
                                  ("panel_info", .list panel_info),
                                  ("method_results", .dict (mr.map fun kv =>
                                    (kv.1, methodOutcomeToPy kv.2)))])], s)

/-- Mapping lookup on the arguments dict. -/
def lookupArg (args : Args) (k : String) : Option ArgVal :=
  (args.find? fun kv => kv.1 = k).map fun kv => kv.2

/-- Python `arguments and k in arguments`, returning the value when it holds:
`none` exactly when the mapping is `None`, empty, or lacks the key. -/
def argOpt (arguments : Option Args) (k : String) : Option ArgVal :=
  match arguments with
  | Option.none => Option.none
  | some args => if args.isEmpty then Option.none else lookupArg args k

/-- Python truthiness check `not arguments[k]` on an argument value. -/
def ArgVal.falsy : ArgVal → Bool
  | .str s => s = ""
  | .bool b => !b
  | .int i => i = 0

/-- `arguments[k] = v` on the arguments dict. -/
def setArg (args : Args) (k : String) (v : ArgVal) : Args :=
  if args.any fun kv => kv.1 = k then
    args.map fun kv => if kv.1 = k then (k, v) else kv
  else args ++ [(k, v)]

/-- The dispatcher's missing-required-parameter error text (server.py:492 etc.). -/
def missingParamMsg (field : String) : String :=
  "错误: 缺少必要参数 '" ++ field ++ "'"

/-- The fixed two-code default (server.py:577). -/
def literalDefaultCodes : String := "000001.SZ,600519.SH"

/-- Extract the strings of a Python list for `",".join`; `none` models the
`TypeError` raised by `join` on a non-string element. -/
def joinStrs? : List PyVal → Option (List String)
  | [] => some []
  | .str t :: xs => (joinStrs? xs).map fun l => t :: l
  | _ :: _ => Option.none

/-- Default-codes resolution of the `create_chart_panel` /
`create_custom_layout` dispatcher branches (server.py:570-579), as a function
of the outcome of the stock-list lookup: on a raised exception the fixed
literal; on a non-empty list the first 5 entries comma-joined (a `TypeError`
from joining non-strings is caught by the same `except`, yielding the
literal); on an empty or non-list result the literal.  In this program the
lookup is `get_stock_list`, which always returns a (non-empty) list of
strings and never raises; this definition keeps the dispatcher's `try`/
`except` and `isinstance` logic over general outcomes. -/
def resolveDefaultCodes : Except String PyVal → String
  | .error _ => literalDefaultCodes
  | .ok (.list xs) =>
    if 0 < xs.length then
      match joinStrs? (xs.take 5) with
      | some strs => String.intercalate "," strs
      | Option.none => literalDefaultCodes
    else literalDefaultCodes
  | .ok _ => literalDefaultCodes

/-- The default-codes resolution step of the `create_chart_panel` /
`create_custom_layout` dispatcher branches: perform the stock-list lookup
with the default sector and feed its outcome (in this program: always a
returned list of strings) to `resolveDefaultCodes`. -/
def resolveChartCodes (b : Backend) (s : SrvState) : String × SrvState :=
  let (sl, s') := get_stock_list b s "沪深A股"
  (resolveDefaultCodes (.ok (.list (sl.map .str))), s')

/-- The eight registered tool names, in registry order (server.py:250-448). -/
def registeredTools : List String :=
  ["get_trading_dates", "get_stock_list", "get_instrument_detail",
   "get_history_market_data", "get_latest_market_data", "get_full_market_data",
   "create_chart_panel", "create_custom_layout"]

/-- The boolean coercion of `iscomplete` (server.py:496-502): native booleans
pass, strings compare case-insensitively to `"true"`, anything else is
`False`. -/
def coerceIscomplete (v : Option ArgVal) : Bool :=
  match v with
  | some (.bool b) => b
  | some (.str t) => pyLower t = "true"
  | _ => false

/--
`handle_call_tool` (server.py:452): routes `(name, arguments)` to the matching
handler.  Returns `.error` exactly where the Python coroutine raises: the
final `ValueError(f"Unknown tool: {name}")` for unregistered names, an
`AttributeError` when `.split` is applied to a non-string `codes`/`fields`
argument, and a pydantic `ValidationError` when a non-string value is fed to
a `str` model field (pydantic v2 does not coerce).  Every non-raising path
returns a single text content item.
-/
def handle_call_tool (b : Backend) (s : SrvState) (name : String)
    (arguments : Option Args) : Except String (List String) × SrvState :=
  if name = "get_trading_dates" then
    match (argOpt arguments "market").getD (.str "SH") with
    | .str market =>
      let (res, s') := get_trading_dates b s market
      (.ok [jsonDumps (.list (res.map .str))], s')
    | _ => (.error "ValidationError: market", s)
  else if name = "get_stock_list" then
    match (argOpt arguments "sector").getD (.str "沪深A股") with
    | .str sector =>
      let (res, s') := get_stock_list b s sector
      (.ok [jsonDumps (.list (res.map .str))], s')
    | _ => (.error "ValidationError: sector", s)
  else if name = "get_instrument_detail" then
    match argOpt arguments "code" with
    | Option.none => (.ok [missingParamMsg "code"], s)
    | some codeVal =>
      let args := arguments.getD []
      let iscomplete := coerceIscomplete (lookupArg args "iscomplete")
      match codeVal with
      | .str code =>
        let (res, s') := get_instrument_detail b s code iscomplete
        (.ok [jsonDumps res], s')
      | _ => (.error "ValidationError: code", s)
  else if name = "get_history_market_data" then
    match argOpt arguments "codes" with
    | Option.none => (.ok [missingParamMsg "codes"], s)
    | some codesVal =>
      let args := arguments.getD []
      match codesVal with
      | .str codes_str =>
        -- the dispatcher pre-splits codes_str and fields_str here; the local
        -- results are unused, but a non-string raises AttributeError first
        match (lookupArg args "fields").getD (.str "") with
        | .str fields_str =>
          match (lookupArg args "period").getD (.str "1d"),
              (lookupArg args "start_date").getD (.str ""),
              (lookupArg args "end_date").getD (.str "") with
          | .str period, .str start_date, .str end_date =>
            let (res, s') := get_history_market_data b s
              ⟨codes_str, period, start_date, end_date, fields_str⟩
            (.ok [jsonDumps res], s')
          | _, _, _ => (.error "ValidationError: GetMarketDataInput", s)
        | _ => (.error "AttributeError: split", s)
      | _ => (.error "AttributeError: split", s)
  else if name = "get_latest_market_data" then
    match argOpt arguments "codes" with
    | Option.none => (.ok [missingParamMsg "codes"], s)
    | some codesVal =>
      let args := arguments.getD []
      match codesVal with
      | .str codes_str =>
        match (lookupArg args "period").getD (.str "1d") with
        | .str period =>
          let (res, s') := get_latest_market_data b s
            ⟨codes_str, period, "", "", ""⟩
          (.ok [jsonDumps res], s')
        | _ => (.error "ValidationError: GetMarketDataInput", s)
      | _ => (.error "AttributeError: split", s)
  else if name = "get_full_market_data" then
    match argOpt arguments "codes" with
    | Option.none => (.ok [missingParamMsg "codes"], s)
    | some codesVal =>
      let args := arguments.getD []
      match codesVal with
      | .str codes_str =>
        match (lookupArg args "fields").getD (.str "") with
        | .str fields_str =>
          match (lookupArg args "period").getD (.str "1d"),
              (lookupArg args "start_date").getD (.str ""),
              (lookupArg args "end_date").getD (.str "") with
          | .str period, .str start_date, .str end_date =>
            let (res, s') := get_full_market_data b s
              ⟨codes_str, period, start_date, end_date, fields_str⟩
            (.ok [jsonDumps res], s')
          | _, _, _ => (.error "ValidationError: GetMarketDataInput", s)
        | _ => (.error "AttributeError: split", s)
      | _ => (.error "AttributeError: split", s)
  else if name = "create_chart_panel" then
    -- `if not arguments: arguments = {}`
    let args := arguments.getD []
    -- `if "codes" not in arguments or not arguments["codes"]`
    let needDefault := match lookupArg args "codes" with
      | Option.none => true
      | some v => v.falsy
    let (args, s) :=
      if needDefault then
        (setArg args "codes" (.str (resolveChartCodes b s).1), (resolveChartCodes b s).2)
      else (args, s)
    match lookupArg args "codes" with
    | some (.str codes) =>
      match (lookupArg args "period").getD (.str "1d"),
          (lookupArg args "indicators").getD (.str "ma"),
          (lookupArg args "params").getD (.str "5,10,20") with
      | .str period, .str indicators, .str params =>
        let (res, s') := create_chart_panel b s ⟨codes, period, indicators, params⟩
        (.ok [jsonDumps res], s')
      | _, _, _ => (.error "ValidationError: CreateChartPanelInput", s)
    | _ => (.error "ValidationError: CreateChartPanelInput", s)
  else if name = "create_custom_layout" then
    let args := arguments.getD []
    let needDefault := match lookupArg args "codes" with
      | Option.none => true
      | some v => v.falsy
    let (args, s) :=
      if needDefault then
        (setArg args "codes" (.str (resolveChartCodes b s).1), (resolveChartCodes b s).2)
      else (args, s)
    match lookupArg args "codes" with
    | some (.str codes) =>
      match (lookupArg args "period").getD (.str "1d"),
          (lookupArg args "indicator_name").getD (.str "ma"),
          (lookupArg args "param_names").getD (.str "n1,n2,n3"),
          (lookupArg args "param_values").getD (.str "5,10,20") with
      | .str period, .str indicator_name, .str param_names, .str param_values =>
        let (res, s') := create_custom_layout b s
          ⟨codes, period, indicator_name, param_names, param_values⟩
        (.ok [jsonDumps res], s')
      | _, _, _, _ => (.error "ValidationError: CreateCustomLayoutInput", s)
    | _ => (.error "ValidationError: CreateCustomLayoutInput", s)
  else (.error ("Unknown tool: " ++ name), s)

/-! ## Helper definitions for the theorems -/

/-- Lookup in a handler-result dict. -/
def dictGet : PyVal → String → Option PyVal
  | .dict kvs, k => (kvs.find? fun kv => kv.1 = k).map fun kv => kv.2
  | _, _ => Option.none

def isMarketDataEvent : CallEvent → Bool
  | .getMarketData _ _ _ _ _ _ => true
  | _ => false

/-- The `get_market_data` backend invocations recorded in a trace. -/
def marketDataEvents (l : List CallEvent) : List CallEvent :=
  l.filter isMarketDataEvent

/-- The fallback attempts recorded for the present-but-raising methods of a
name list, in order. -/
def presentRaisers (b : Backend) (ms : List String) :
    List (String × MethodOutcome) :=
  ms.filterMap fun m =>
    if b.hasAttr m then
      match b.panelCall m with
      | .error e => some (m, .err e)
      | .ok _ => Option.none
    else Option.none

/-- A minimal concrete backend used to instantiate witnesses and
counterexamples. -/
def dummyBackend : Backend where
  hasAttr := fun _ => false
  startRaises := false
  tradingDates := fun _ => .ok (some [])
  stockListInSector := fun _ => .ok (some ["000001.SZ", "600519.SH", "300059.SZ"])
  instrumentDetail := fun c _ => .ok (some [("code", .str c)])
  marketData := fun _ _ _ _ _ _ => .ok (some [])
  panelCall := fun _ => .ok "True"
  refreshUi := .ok ()

/-! ## Basic lemmas -/

theorem ensure_of_initialized (b : Backend) (s : SrvState)
    (h : s.initialized = true) : ensure_xtdc_initialized b s = s := by
  simp [ensure_xtdc_initialized, h]

theorem ensureTimes_of_initialized (b : Backend) (n : Nat) (t : List CallEvent) :
    ensureTimes b ⟨true, t⟩ n = ⟨true, t⟩ := by
  induction n with
  | zero => rfl
  | succ n ih => simpa [ensureTimes, ensure_xtdc_initialized] using ih

theorem countStart_append (l₁ l₂ : List CallEvent) :
    countStart (l₁ ++ l₂) = countStart l₁ + countStart l₂ := by
  simp [countStart]

/-! ## C2: the initialization guard -/

/-- Backend whose `start_xtdata` exists and always raises. -/
def bC2 : Backend :=
  { dummyBackend with hasAttr := fun a => a == "start_xtdata", startRaises := true }

/-- Auxiliary: with a present, always-raising `start_xtdata`, every iteration
of the guard invokes the startup again (the flag is never set). -/
theorem ensureTimes_raising (b : Backend) (hs : b.hasAttr "start_xtdata" = true)
    (hr : b.startRaises = true) (n : Nat) (t : List CallEvent) :
    ensureTimes b ⟨false, t⟩ n = ⟨false, t ++ List.replicate n .startXtdata⟩ := by
  induction n generalizing t with
  | zero => simp [ensureTimes]
  | succ n ih =>
    have : ensure_xtdc_initialized b ⟨false, t⟩ =
        (⟨false, t ++ [.startXtdata]⟩ : SrvState) := by
      simp [ensure_xtdc_initialized, SrvState.log, hs, hr]
    rw [ensureTimes, this, ih]
    simp [List.replicate_succ]

/--
C2 (amended): characterization of the number of `start_xtdata` invocations
across `n` calls to `ensure_xtdc_initialized` from a fresh process state.
When the startup operation is absent it is never invoked; when it is present
and does not raise, it is invoked at most once (exactly once as soon as
`n ≥ 1`); but when it raises, the guard flag is **not** set (the assignment
after the raising call is skipped), so every one of the `n` calls re-invokes
the startup — the claim's "at most once regardless of whether the first
invocation succeeded or raised" fails in the raising case.
`ensure_xtdc_initialized` itself never raises: it is a total function into
`SrvState` (the `except` clause swallows the startup failure).
-/
theorem c2_start_invocation_count (b : Backend) (n : Nat) :
    countStart (ensureTimes b ⟨false, []⟩ n).trace =
      if b.hasAttr "start_xtdata" then (if b.startRaises then n else min 1 n) else 0 := by
  cases hs : b.hasAttr "start_xtdata" with
  | false =>
    cases n with
    | zero => simp [ensureTimes, countStart]
    | succ n =>
      have h1 : ensure_xtdc_initialized b ⟨false, []⟩ = (⟨true, []⟩ : SrvState) := by
        simp [ensure_xtdc_initialized, hs]
      rw [ensureTimes, h1, ensureTimes_of_initialized]
      simp [countStart, hs]
  | true =>
    cases hr : b.startRaises with
    | true =>
      rw [ensureTimes_raising b hs hr n []]
      simp [countStart, List.filter_replicate, hs, hr]
    | false =>
      cases n with
      | zero => simp [ensureTimes, countStart, hs, hr]
      | succ n =>
        have h1 : ensure_xtdc_initialized b ⟨false, []⟩ =
            (⟨true, [.startXtdata]⟩ : SrvState) := by
          simp [ensure_xtdc_initialized, SrvState.log, hs, hr]
        rw [ensureTimes, h1, ensureTimes_of_initialized]
        simp [countStart, hs, hr]

/--
C2 counterexample: with a backend whose startup operation always raises, a
sequence of `N = 2` calls to `ensure_xtdc_initialized` invokes `start_xtdata`
twice — refuting "the backend startup operation is invoked at most once
across the whole sequence, regardless of whether the first invocation
succeeded or raised; every call after the first is a no-op".
-/
theorem c2_counterexample :
    ¬ countStart (ensureTimes bC2 ⟨false, []⟩ 2).trace ≤ 1 := by decide

/-! ## C9: custom-layout parameter parsing -/

/--
C9: parsing `param_values = "5,abc,3.5"` against `param_names = "n1,n2,n3"`
in `create_custom_layout` yields `{n1: 5 (int), n2: "abc" (str),
n3: 3.5 (float)}`.  `parseCommaList`/`parseParamValues`/
`customIndicatorParams` are exactly the parsing steps of the embedded
`create_custom_layout`.
-/
theorem c9_custom_layout_param_parsing :
    customIndicatorParams (parseCommaList "n1,n2,n3") (parseParamValues "5,abc,3.5") =
      [("n1", .int 5), ("n2", .str "abc"), ("n3", .float (3.5 : Rat))] := by
  have hq : (3.5 : Rat) = ((3 : Nat) : Rat) + ((5 : Nat) : Rat) / (10 ^ 1 : Rat) := by
    norm_num
  rw [hq]
  rfl

/-! ## C6: trading-dates truncation and formatting -/

/--
C6 (amended): for every **non-empty** backend-provided trading-dates
sequence, `get_trading_dates` returns exactly the last-30 tail of the
sequence, in order, each entry formatted by `formatTradingDate` (an integer
whose decimal string has exactly 8 characters becomes `YYYY-MM-DD`; an entry
with a `strftime` capability is formatted through it; anything else is
stringified), and the output length is at most 30.  The empty sequence is the
counterexample to the original claim: it yields the single message
`未找到交易日期数据` instead of the (empty) formatted tail.
-/
theorem c6_trading_dates_tail (b : Backend) (s : SrvState) (market : String)
    (dates : List DateEntry) (hne : dates ≠ [])
    (hb : b.tradingDates market = .ok (some dates)) :
    (get_trading_dates b s market).1 =
      (dates.drop (dates.length - 30)).map formatTradingDate ∧
    (get_trading_dates b s market).1.length ≤ 30 := by
  have hlen : ¬ dates.length = 0 := by simpa using hne
  constructor
  · simp [get_trading_dates, hb, hlen]
  · simp [get_trading_dates, hb, hlen]
    omega

/-- Backend returning three trading dates (one 8-digit integer, one
`strftime`-capable object, one short integer). -/
def b6w : Backend :=
  { dummyBackend with
    tradingDates := fun _ =>
      .ok (some [.int 20230101, .obj (some "2023-01-02") "x", .int 5]) }

theorem c6_witness :
    (get_trading_dates b6w ⟨false, []⟩ "SH").1 =
      ([DateEntry.int 20230101, DateEntry.obj (some "2023-01-02") "x",
        DateEntry.int 5].drop
        ([DateEntry.int 20230101, DateEntry.obj (some "2023-01-02") "x",
          DateEntry.int 5].length - 30)).map formatTradingDate ∧
    (get_trading_dates b6w ⟨false, []⟩ "SH").1.length ≤ 30 :=
  c6_trading_dates_tail b6w ⟨false, []⟩ "SH" _ (by decide) rfl

/--
C6 counterexample: with a backend returning the **empty** trading-dates
sequence, `get_trading_dates` returns the one-element message list
`["未找到交易日期数据"]`, which is not the (empty) last-30 tail of the
sequence — so "For every backend-provided trading-dates sequence, ... returns
... entries equal to the sequence's last-30 tail" fails at the empty
sequence.
-/
theorem c6_counterexample :
    (get_trading_dates dummyBackend ⟨false, []⟩ "SH").1 = ["未找到交易日期数据"] ∧
    (get_trading_dates dummyBackend ⟨false, []⟩ "SH").1 ≠
      (([] : List DateEntry).drop (([] : List DateEntry).length - 30)).map
        formatTradingDate :=
  ⟨rfl, by decide⟩

/-! ## C1: required-field validation -/

/--
C1 (amended): for each of the four tools with a declared-required field
(`get_instrument_detail`/`code`; `get_history_market_data`,
`get_latest_market_data`, `get_full_market_data`/`codes`), when the field is
**absent** from the arguments mapping (including when the mapping itself is
absent or empty — `argOpt args k = none` is exactly Python's
`not arguments or k not in arguments`), `handle_call_tool` returns the single
error content item `错误: 缺少必要参数 '<field>'` and leaves the process state
unchanged: no backend method and no lifecycle startup is invoked.  A field
that is *present but empty* is **not** caught by this validation (the
original claim fails there, see the counterexample): the call proceeds to the
handler, which does invoke the lifecycle startup and the backend.
-/
theorem c1_missing_required_field (b : Backend) (s : SrvState) (args : Option Args) :
    (argOpt args "code" = Option.none →
      handle_call_tool b s "get_instrument_detail" args =
        (.ok [missingParamMsg "code"], s)) ∧
    (argOpt args "codes" = Option.none →
      handle_call_tool b s "get_history_market_data" args =
        (.ok [missingParamMsg "codes"], s)) ∧
    (argOpt args "codes" = Option.none →
      handle_call_tool b s "get_latest_market_data" args =
        (.ok [missingParamMsg "codes"], s)) ∧
    (argOpt args "codes" = Option.none →
      handle_call_tool b s "get_full_market_data" args =
        (.ok [missingParamMsg "codes"], s)) := by
  refine ⟨fun h => ?_, fun h => ?_, fun h => ?_, fun h => ?_⟩ <;>
    simp [handle_call_tool, h]

theorem c1_witness :
    handle_call_tool dummyBackend ⟨false, []⟩ "get_instrument_detail" Option.none =
      (.ok [missingParamMsg "code"], ⟨false, []⟩) ∧
    handle_call_tool dummyBackend ⟨false, []⟩ "get_history_market_data" Option.none =
      (.ok [missingParamMsg "codes"], ⟨false, []⟩) ∧
    handle_call_tool dummyBackend ⟨false, []⟩ "get_latest_market_data" Option.none =
      (.ok [missingParamMsg "codes"], ⟨false, []⟩) ∧
    handle_call_tool dummyBackend ⟨false, []⟩ "get_full_market_data" Option.none =
      (.ok [missingParamMsg "codes"], ⟨false, []⟩) :=
  ⟨(c1_missing_required_field dummyBackend ⟨false, []⟩ Option.none).1 rfl,
   (c1_missing_required_field dummyBackend ⟨false, []⟩ Option.none).2.1 rfl,
   (c1_missing_required_field dummyBackend ⟨false, []⟩ Option.none).2.2.1 rfl,
   (c1_missing_required_field dummyBackend ⟨false, []⟩ Option.none).2.2.2 rfl⟩

/-- Backend used in the C1 counterexample: the lifecycle startup operation
exists (and succeeds). -/
def bC1 : Backend :=
  { dummyBackend with hasAttr := fun a => a == "start_xtdata" }

/--
C1 counterexample: calling `get_instrument_detail` with `code` **present but
empty** (`{"code": ""}`) is *not* short-circuited by the required-field
validation: the dispatcher proceeds to the handler, which invokes the
lifecycle startup (`start_xtdata`) and the backend `get_instrument_detail`
method, as the resulting trace shows — refuting "present but empty ...
returns a single error content item ... without invoking any backend method
(including the lifecycle startup)".
-/
theorem c1_counterexample :
    (handle_call_tool bC1 ⟨false, []⟩ "get_instrument_detail"
        (some [("code", ArgVal.str "")])).2 =
      ⟨true, [.startXtdata, .getInstrumentDetail "" false]⟩ := by
  rfl

/-! ## C8: default-codes resolution -/

theorem joinStrs?_map_str (xs : List String) :
    joinStrs? (xs.map PyVal.str) = some xs := by
  induction xs with
  | nil => rfl
  | cons x xs ih => simp [joinStrs?, ih]

/--
C8: the dispatcher's default-codes resolution for `create_chart_panel` (and
`create_custom_layout`) when `codes` is absent or empty.  Stated over the
outcome of the stock-list lookup exactly as the source's `try`/`except` +
`isinstance` logic handles it: a raised lookup falls back to the literal
two-code default; a non-empty list of strings yields the first 5 entries
comma-joined; an empty list or a non-list result falls back to the literal.
The last conjunct records that in this program the lookup (`get_stock_list`)
always returns a non-empty list, so the composed dispatcher
(`resolveChartCodes`, used by `handle_call_tool`) always takes the
first-5-comma-joined branch of whatever the lookup returned.
-/
theorem c8_default_codes_resolution (lk : Except String PyVal) :
    (∀ e, lk = .error e → resolveDefaultCodes lk = literalDefaultCodes) ∧
    (∀ xs : List String, xs ≠ [] → lk = .ok (.list (xs.map .str)) →
      resolveDefaultCodes lk = String.intercalate "," (xs.take 5)) ∧
    (lk = .ok (.list []) → resolveDefaultCodes lk = literalDefaultCodes) ∧
    (∀ v, lk = .ok v → (∀ xs, v ≠ .list xs) →
      resolveDefaultCodes lk = literalDefaultCodes) ∧
    (∀ (b : Backend) (s : SrvState),
      (resolveChartCodes b s).1 =
        String.intercalate "," (((get_stock_list b s "沪深A股").1).take 5)) := by
  have key : ∀ xs : List String, xs ≠ [] →
      resolveDefaultCodes (.ok (.list (xs.map .str))) =
        String.intercalate "," (xs.take 5) := by
    intro xs hne
    have hlen : 0 < (xs.map PyVal.str).length := by
      simpa [List.length_pos] using hne
    simp only [resolveDefaultCodes, if_pos hlen]
    rw [← List.map_take, joinStrs?_map_str]
  refine ⟨fun e h => by rw [h]; rfl, fun xs hne h => by rw [h]; exact key xs hne,
    fun h => by rw [h]; rfl, fun v h hv => ?_, fun b s => ?_⟩
  · rw [h]
    cases v with
    | list xs => exact absurd rfl (hv xs)
    | str s => rfl
    | int i => rfl
    | float q => rfl
    | bool bo => rfl
    | none => rfl
    | dict kvs => rfl
  · have hne : (get_stock_list b s "沪深A股").1 ≠ [] := by
      simp only [get_stock_list]
      rcases b.stockListInSector "沪深A股" with e | o
      · simp
      · cases o with
        | none => simp
        | some l =>
          by_cases hl : l.length = 0
          · simp [hl]
          · have hl' : l ≠ [] := by
              intro h0
              exact hl (by simp [h0])
            simp [hl, List.take_eq_nil_iff, hl']
    simpa [resolveChartCodes] using key _ hne

theorem c8_witness :
    resolveDefaultCodes (.ok (.list
      (["a1.SZ", "a2.SZ", "a3.SZ", "a4.SZ", "a5.SZ", "a6.SZ", "a7.SZ", "a8.SZ"].map PyVal.str))) =
      String.intercalate ","
        (["a1.SZ", "a2.SZ", "a3.SZ", "a4.SZ", "a5.SZ", "a6.SZ", "a7.SZ", "a8.SZ"].take 5) :=
  (c8_default_codes_resolution _).2.1 _ (by decide) rfl

/-! ## C4/C5: market-data code filtering and fixed-field queries -/

theorem marketDataEvents_ensure (b : Backend) (s : SrvState) :
    marketDataEvents (ensure_xtdc_initialized b s).trace =
      marketDataEvents s.trace := by
  simp only [ensure_xtdc_initialized, SrvState.log]
  split_ifs <;> simp [marketDataEvents, isMarketDataEvent, List.filter_append]

/-- Logging one `get_market_data` event after the initialization guard of a
fresh state leaves exactly that event among the recorded data invocations. -/
theorem marketDataEvents_log_md (b : Backend) (i : Bool) (ev : CallEvent)
    (hev : isMarketDataEvent ev = true) :
    marketDataEvents ((ensure_xtdc_initialized b ⟨i, []⟩).log ev).trace = [ev] := by
  have hens : marketDataEvents (ensure_xtdc_initialized b ⟨i, []⟩).trace = [] := by
    simpa [marketDataEvents] using marketDataEvents_ensure b ⟨i, []⟩
  simp only [SrvState.log, marketDataEvents, List.filter_append] at *
  rw [hens]
  simp [hev]

/-- The `get_market_data` invocations of one `get_latest_market_data` call
from a fresh trace: none when every parsed code is filtered out, else exactly
one with the fixed OHLCV fields, the filtered codes and `count=1`. -/
theorem latest_events (b : Backend) (i : Bool) (inp : MDInput) :
    marketDataEvents (get_latest_market_data b ⟨i, []⟩ inp).2.trace =
      if ((parseCommaList inp.codes).filter looksLikeCode).isEmpty then []
      else [.getMarketData defaultFields
        ((parseCommaList inp.codes).filter looksLikeCode) inp.period
        Option.none Option.none (some 1)] := by
  have hens : marketDataEvents (ensure_xtdc_initialized b ⟨i, []⟩).trace = [] := by
    simpa [marketDataEvents] using marketDataEvents_ensure b ⟨i, []⟩
  simp only [get_latest_market_data]
  by_cases hc : (parseCommaList inp.codes).isEmpty
  · have hf : ((parseCommaList inp.codes).filter looksLikeCode).isEmpty = true := by
      rw [List.isEmpty_iff] at hc ⊢
      simp [hc]
    simp [hc, hf, hens]
  · by_cases hv : ((parseCommaList inp.codes).filter looksLikeCode).isEmpty
    · simp [hc, hv, hens]
    · simp only [hc, hv, Bool.false_eq_true, if_false]
      rcases b.marketData defaultFields
          ((parseCommaList inp.codes).filter looksLikeCode) inp.period
          Option.none Option.none (some 1) with e | o
      · exact marketDataEvents_log_md b i _ rfl
      · cases o <;> exact marketDataEvents_log_md b i _ rfl

/-- The error payload of `get_latest_market_data` when every code is
filtered out. -/
theorem latest_result_empty (b : Backend) (s : SrvState) (inp : MDInput)
    (h : (parseCommaList inp.codes).filter looksLikeCode = []) :
    (get_latest_market_data b s inp).1 =
      .dict [("error", .str "未提供有效的股票代码")] := by
  simp only [get_latest_market_data]
  by_cases hc : (parseCommaList inp.codes).isEmpty
  · simp [hc]
  · simp [hc, h]

/--
C5: `get_latest_market_data` queries the backend with exactly the fixed
OHLCV five-field set and `count=1` on the filtered codes (regardless of any
caller-supplied `fields` — the input's `fields` is universally quantified and
never consulted), and when every parsed code is filtered out (or none parse)
it returns `{error: 未提供有效的股票代码}` without invoking the backend data
method.
-/
theorem c5_latest_fixed_query (b : Backend) (i : Bool) (inp : MDInput) :
    ((parseCommaList inp.codes).filter looksLikeCode ≠ [] →
      marketDataEvents (get_latest_market_data b ⟨i, []⟩ inp).2.trace =
        [.getMarketData defaultFields
          ((parseCommaList inp.codes).filter looksLikeCode) inp.period
          Option.none Option.none (some 1)]) ∧
    ((parseCommaList inp.codes).filter looksLikeCode = [] →
      (get_latest_market_data b ⟨i, []⟩ inp).1 =
        .dict [("error", .str "未提供有效的股票代码")] ∧
      marketDataEvents (get_latest_market_data b ⟨i, []⟩ inp).2.trace = []) := by
  constructor
  · intro h
    rw [latest_events]
    simp [List.isEmpty_iff, h]
  · intro h
    refine ⟨latest_result_empty b ⟨i, []⟩ inp h, ?_⟩
    rw [latest_events]
    simp [List.isEmpty_iff, h]

/-- Backend and input for the C5 witness: one well-formed and one malformed
code. -/
def bMD : Backend :=
  { dummyBackend with
    marketData := fun _ _ _ _ _ _ =>
      .ok (some [("000001.SZ", [("close", [PyVal.float 1])])]) }

theorem c5_witness :
    ((parseCommaList "000001.SZ,BAD").filter looksLikeCode ≠ [] →
      marketDataEvents
          (get_latest_market_data bMD ⟨false, []⟩ ⟨"000001.SZ,BAD", "1d", "", "", ""⟩).2.trace =
        [.getMarketData defaultFields
          ((parseCommaList "000001.SZ,BAD").filter looksLikeCode) "1d"
          Option.none Option.none (some 1)]) ∧
    ((parseCommaList "000001.SZ,BAD").filter looksLikeCode = [] →
      (get_latest_market_data bMD ⟨false, []⟩ ⟨"000001.SZ,BAD", "1d", "", "", ""⟩).1 =
        .dict [("error", .str "未提供有效的股票代码")] ∧
      marketDataEvents
          (get_latest_market_data bMD ⟨false, []⟩ ⟨"000001.SZ,BAD", "1d", "", "", ""⟩).2.trace = []) :=
  c5_latest_fixed_query bMD false ⟨"000001.SZ,BAD", "1d", "", "", ""⟩

/-- The `get_market_data` invocations of one `get_history_market_data` call
from a fresh trace: none when no tokens remain after splitting, else exactly
one carrying the parsed codes completely unfiltered. -/
theorem history_events (b : Backend) (i : Bool) (inp : MDInput) :
    marketDataEvents (get_history_market_data b ⟨i, []⟩ inp).2.trace =
      if (parseCommaList inp.codes).isEmpty then []
      else [.getMarketData (parseFields inp.fields) (parseCommaList inp.codes)
        inp.period (some inp.start_date) (some inp.end_date) Option.none] := by
  have hens : marketDataEvents (ensure_xtdc_initialized b ⟨i, []⟩).trace = [] := by
    simpa [marketDataEvents] using marketDataEvents_ensure b ⟨i, []⟩
  simp only [get_history_market_data]
  by_cases hc : (parseCommaList inp.codes).isEmpty
  · simp [hc, hens]
  · simp only [hc, Bool.false_eq_true, if_false]
    rcases b.marketData (parseFields inp.fields) (parseCommaList inp.codes)
        inp.period (some inp.start_date) (some inp.end_date) Option.none with e | o
    · exact marketDataEvents_log_md b i _ rfl
    · cases o <;> exact marketDataEvents_log_md b i _ rfl

/-- The `get_market_data` invocations of one `get_full_market_data` call from
a fresh trace: filtered codes, `count=-1`. -/
theorem full_events (b : Backend) (i : Bool) (inp : MDInput) :
    marketDataEvents (get_full_market_data b ⟨i, []⟩ inp).2.trace =
      if ((parseCommaList inp.codes).filter looksLikeCode).isEmpty then []
      else [.getMarketData (parseFields inp.fields)
        ((parseCommaList inp.codes).filter looksLikeCode) inp.period
        (some inp.start_date) (some inp.end_date) (some (-1))] := by
  have hens : marketDataEvents (ensure_xtdc_initialized b ⟨i, []⟩).trace = [] := by
    simpa [marketDataEvents] using marketDataEvents_ensure b ⟨i, []⟩
  simp only [get_full_market_data]
  by_cases hc : (parseCommaList inp.codes).isEmpty
  · have hf : ((parseCommaList inp.codes).filter looksLikeCode).isEmpty = true := by
      rw [List.isEmpty_iff] at hc ⊢
      simp [hc]
    simp [hc, hf, hens]
  · by_cases hv : ((parseCommaList inp.codes).filter looksLikeCode).isEmpty
    · simp [hc, hv, hens]
    · simp only [hc, hv, Bool.false_eq_true, if_false]
      rcases b.marketData (parseFields inp.fields)
          ((parseCommaList inp.codes).filter looksLikeCode) inp.period
          (some inp.start_date) (some inp.end_date) (some (-1)) with e | o
      · exact marketDataEvents_log_md b i _ rfl
      · cases o <;> exact marketDataEvents_log_md b i _ rfl

/--
C4: the "looks like an instrument code" filter is applied in
`get_latest_market_data` and `get_full_market_data` but **not** in
`get_history_market_data`: for every codes string, one
`get_history_market_data` call passes every non-empty trimmed comma-split
token to the backend `get_market_data` unfiltered, and returns
`{error: 未提供有效的股票代码}` (with no backend data call) only when no
tokens remain after splitting; by contrast, every `get_market_data`
invocation made by `get_latest_market_data` or `get_full_market_data`
carries exactly the filtered code list.
-/
theorem c4_history_codes_unfiltered (b : Backend) (i : Bool) (inp : MDInput) :
    (parseCommaList inp.codes ≠ [] →
      marketDataEvents (get_history_market_data b ⟨i, []⟩ inp).2.trace =
        [.getMarketData (parseFields inp.fields) (parseCommaList inp.codes)
          inp.period (some inp.start_date) (some inp.end_date) Option.none]) ∧
    (parseCommaList inp.codes = [] →
      (get_history_market_data b ⟨i, []⟩ inp).1 =
        .dict [("error", .str "未提供有效的股票代码")] ∧
      marketDataEvents (get_history_market_data b ⟨i, []⟩ inp).2.trace = []) ∧
    (∀ f cs p st en ct,
      CallEvent.getMarketData f cs p st en ct ∈
          (get_latest_market_data b ⟨i, []⟩ inp).2.trace →
      cs = (parseCommaList inp.codes).filter looksLikeCode) ∧
    (∀ f cs p st en ct,
      CallEvent.getMarketData f cs p st en ct ∈
          (get_full_market_data b ⟨i, []⟩ inp).2.trace →
      cs = (parseCommaList inp.codes).filter looksLikeCode) := by
  refine ⟨fun h => ?_, fun h => ?_, fun f cs p st en ct hmem => ?_,
    fun f cs p st en ct hmem => ?_⟩
  · rw [history_events]
    simp [List.isEmpty_iff, h]
  · refine ⟨by simp [get_history_market_data, h], ?_⟩
    rw [history_events]
    simp [List.isEmpty_iff, h]
  · have h2 : CallEvent.getMarketData f cs p st en ct ∈
        marketDataEvents (get_latest_market_data b ⟨i, []⟩ inp).2.trace :=
      List.mem_filter.mpr ⟨hmem, rfl⟩
    rw [latest_events] at h2
    by_cases hv : ((parseCommaList inp.codes).filter looksLikeCode).isEmpty
    · simp [hv] at h2
    · simp only [hv, Bool.false_eq_true, if_false, List.mem_singleton] at h2
      rw [CallEvent.getMarketData.injEq] at h2
      exact h2.2.1
  · have h2 : CallEvent.getMarketData f cs p st en ct ∈
        marketDataEvents (get_full_market_data b ⟨i, []⟩ inp).2.trace :=
      List.mem_filter.mpr ⟨hmem, rfl⟩
    rw [full_events] at h2
    by_cases hv : ((parseCommaList inp.codes).filter looksLikeCode).isEmpty
    · simp [hv] at h2
    · simp only [hv, Bool.false_eq_true, if_false, List.mem_singleton] at h2
      rw [CallEvent.getMarketData.injEq] at h2
      exact h2.2.1

theorem c4_witness :
    marketDataEvents
        (get_history_market_data bMD ⟨false, []⟩
          ⟨"000001.SZ,BAD", "1d", "", "", ""⟩).2.trace =
      [.getMarketData (parseFields "") (parseCommaList "000001.SZ,BAD") "1d"
        (some "") (some "") Option.none] :=
  (c4_history_codes_unfiltered bMD false ⟨"000001.SZ,BAD", "1d", "", "", ""⟩).1
    (by decide)

/-! ## C7: panel-control fallback probing -/

theorem fallbackLoop_none (b : Backend) (ms : List String)
    (h : ∀ m ∈ ms, b.hasAttr m = false) :
    fallbackLoop b ms = ([("no_method_found", .flagTrue)], []) := by
  induction ms with
  | nil => rfl
  | cons m rest ih =>
    have hm := h m (List.mem_cons_self m rest)
    simp only [fallbackLoop, hm, Bool.false_eq_true, if_false]
    exact ih fun m' hm' => h m' (List.mem_cons_of_mem m hm')

/-- The fallback loop, when every name before `m` is absent or raises, `m` is
present and its call succeeds: it records the raising attempts of the present
earlier names, then `m`'s success, and stops (names after `m` are never
consulted). -/
theorem fallbackLoop_first_ok (b : Backend) (pre : List String) (m : String)
    (post : List String) (r : String)
    (hpre : ∀ m' ∈ pre, b.hasAttr m' = false ∨ ∃ e, b.panelCall m' = .error e)
    (hm : b.hasAttr m = true) (hr : b.panelCall m = .ok r) :
    (fallbackLoop b (pre ++ m :: post)).1 = presentRaisers b pre ++ [(m, .ok r)] := by
  induction pre with
  | nil =>
    simp [fallbackLoop, hm, hr, presentRaisers]
  | cons m' rest ih =>
    have htail : ∀ m'' ∈ rest, b.hasAttr m'' = false ∨ ∃ e, b.panelCall m'' = .error e :=
      fun m'' hm'' => hpre m'' (List.mem_cons_of_mem m' hm'')
    by_cases hattr : b.hasAttr m' = true
    · rcases hpre m' (List.mem_cons_self m' rest) with h1 | ⟨e, h2⟩
      · rw [h1] at hattr
        exact absurd hattr (by simp)
      · simp only [List.cons_append, fallbackLoop, hattr, if_true, h2]
        simp only [presentRaisers, List.filterMap_cons, hattr, if_true, h2]
        simpa [presentRaisers] using ih htail
    · simp only [List.cons_append, fallbackLoop, hattr, if_false]
      simp only [presentRaisers, List.filterMap_cons, hattr, if_false]
      simpa [presentRaisers] using ih htail

/--
C7 (amended): in `create_chart_panel` and `create_custom_layout`, when the
backend lacks `apply_ui_panel_control`, the controller records that absence
and tries the fallback names in the fixed order `apply_panel_control`,
`create_panel`, `show_panel`, `display_panel`; it invokes each one that is
present until a call returns without raising, recording each raising attempt
under its name, and stops at the first present fallback whose call succeeds
(recording it under that name); when no fallback name is present it records
`no_method_found` — and in every case the invocation still returns a payload
with `success: true`.  (A present fallback whose call **raises** does *not*
stop the probing — the original claim's "stopping there" fails in that case;
see the counterexample.)
-/
theorem c7_panel_fallback (b : Backend) (s : SrvState) (inp : ChartInput)
    (inp2 : CustomLayoutInput)
    (hstocks : parseCommaList inp.codes ≠ [])
    (hstocks2 : parseCommaList inp2.codes ≠ [])
    (hprim : b.hasAttr "apply_ui_panel_control" = false) :
    dictGet (create_chart_panel b s inp).1 "success" = some (.bool true) ∧
    dictGet (create_custom_layout b s inp2).1 "success" = some (.bool true) ∧
    ((∀ m ∈ possible_methods, b.hasAttr m = false) →
      (applyPanelMethods b).1 =
        [("apply_ui_panel_control", .notPresent), ("no_method_found", .flagTrue)]) ∧
    (∀ pre m post r, possible_methods = pre ++ m :: post →
      (∀ m' ∈ pre, b.hasAttr m' = false ∨ ∃ e, b.panelCall m' = .error e) →
      b.hasAttr m = true → b.panelCall m = .ok r →
      (applyPanelMethods b).1 =
        ("apply_ui_panel_control", .notPresent) ::
          (presentRaisers b pre ++ [(m, .ok r)])) := by
  refine ⟨?_, ?_, fun h => ?_, fun pre m post r hsplit hpre hm hr => ?_⟩
  · simp [create_chart_panel, List.isEmpty_iff, hstocks, dictGet]
  · simp [create_custom_layout, List.isEmpty_iff, hstocks2, dictGet]
  · simp [applyPanelMethods, hprim, fallbackLoop_none b _ h]
  · simp only [applyPanelMethods, hprim, Bool.false_eq_true, if_false]
    rw [hsplit]
    simp [fallbackLoop_first_ok b pre m post r hpre hm hr]

/-- Backend for the C7 witness: only the fallback `show_panel` is present,
and it succeeds. -/
def b7w : Backend :=
  { dummyBackend with hasAttr := fun a => a == "show_panel" }

theorem c7_witness :
    dictGet (create_chart_panel b7w ⟨false, []⟩
        ⟨"000001.SZ", "1d", "ma", "5,10,20"⟩).1 "success" = some (.bool true) ∧
    (applyPanelMethods b7w).1 =
      [("apply_ui_panel_control", .notPresent), ("show_panel", .ok "True")] := by
  have h := c7_panel_fallback b7w ⟨false, []⟩ ⟨"000001.SZ", "1d", "ma", "5,10,20"⟩
    ⟨"000001.SZ", "1d", "ma", "n1,n2,n3", "5,10,20"⟩ (by decide) (by decide) rfl
  refine ⟨h.1, ?_⟩
  have h4 := h.2.2.2 ["apply_panel_control", "create_panel"] "show_panel"
    ["display_panel"] "True" rfl (fun m' hm' => by fin_cases hm' <;> exact Or.inl rfl)
    rfl rfl
  simpa [presentRaisers] using h4

/-- Backend for the C7 counterexample: `apply_ui_panel_control` absent, the
first present fallback (`apply_panel_control`) raises, the next
(`create_panel`) succeeds. -/
def bC7 : Backend :=
  { dummyBackend with
    hasAttr := fun a => a == "apply_panel_control" || a == "create_panel",
    panelCall := fun m =>
      if m == "apply_panel_control" then .error "boom" else .ok "True" }

/--
C7 counterexample: with `apply_ui_panel_control` absent,
`apply_panel_control` present but raising, and `create_panel` present and
succeeding, the controller does **not** stop at the first present fallback:
it records the raising attempt and goes on to invoke `create_panel` as well
(both invocations appear in the `create_chart_panel` trace) — refuting
"invokes the first one present ... and records the attempt under that
method's name, stopping there".
-/
theorem c7_counterexample :
    (applyPanelMethods bC7).1 =
      [("apply_ui_panel_control", .notPresent),
       ("apply_panel_control", .err "boom"),
       ("create_panel", .ok "True")] ∧
    (create_chart_panel bC7 ⟨false, []⟩ ⟨"000001.SZ", "1d", "ma", "5,10,20"⟩).2.trace =
      [.panelMethod "apply_panel_control", .panelMethod "create_panel"] :=
  ⟨rfl, rfl⟩

/-! ## C3/C10: valid arguments, dispatch totality, single-content invariant -/

/-- Validity of an arguments list: every value is a string, except that the
`iscomplete` key may also carry a native boolean.  These are exactly the
argument shapes the dispatcher handles without raising (pydantic rejects
anything else for the declared `str` fields, and `.split` raises on
non-strings). -/
def ValidArgList (args : Args) : Prop :=
  ∀ kv ∈ args,
    (∃ t, kv.2 = ArgVal.str t) ∨ (kv.1 = "iscomplete" ∧ ∃ bo, kv.2 = ArgVal.bool bo)

/-- Validity of an optional arguments mapping. -/
def ValidArgs (arguments : Option Args) : Prop :=
  ValidArgList (arguments.getD [])

theorem valid_lookup (args : Args) (h : ValidArgList args) (k : String) (v : ArgVal)
    (hk : lookupArg args k = some v) :
    (∃ t, v = ArgVal.str t) ∨ (k = "iscomplete" ∧ ∃ bo, v = ArgVal.bool bo) := by
  unfold lookupArg at hk
  rcases hfind : args.find? (fun kv => kv.1 = k) with _ | kv₀
  · rw [hfind] at hk
    cases hk
  · rw [hfind] at hk
    have hv : kv₀.2 = v := by simpa using hk
    have hmem : kv₀ ∈ args := List.mem_of_find?_eq_some hfind
    have hkey : kv₀.1 = k := by simpa using List.find?_some hfind
    rcases h kv₀ hmem with ⟨t, ht⟩ | ⟨hk1, bo, hb⟩
    · exact Or.inl ⟨t, by rw [← hv]; exact ht⟩
    · exact Or.inr ⟨hkey ▸ hk1, bo, by rw [← hv]; exact hb⟩

theorem argOpt_some_lookup (arguments : Option Args) (k : String) (v : ArgVal)
    (hk : argOpt arguments k = some v) :
    lookupArg (arguments.getD []) k = some v := by
  cases arguments with
  | none => cases hk
  | some args =>
    by_cases he : args.isEmpty
    · simp [argOpt, he] at hk
    · simpa [argOpt, he] using hk

theorem argOpt_some_str (arguments : Option Args) (hv : ValidArgs arguments)
    (k : String) (v : ArgVal) (hk : argOpt arguments k = some v)
    (hne : k ≠ "iscomplete") : ∃ t, v = ArgVal.str t := by
  rcases valid_lookup _ hv k v (argOpt_some_lookup arguments k v hk) with h | ⟨h1, _⟩
  · exact h
  · exact absurd h1 hne

theorem argOpt_getD_str (arguments : Option Args) (hv : ValidArgs arguments)
    (k : String) (d : String) (hne : k ≠ "iscomplete") :
    ∃ t, (argOpt arguments k).getD (ArgVal.str d) = ArgVal.str t := by
  rcases ho : argOpt arguments k with _ | v
  · exact ⟨d, rfl⟩
  · obtain ⟨t, ht⟩ := argOpt_some_str arguments hv k v ho hne
    exact ⟨t, by simp [ht]⟩

theorem getD_str_of_valid (args : Args) (hv : ValidArgList args) (k : String)
    (d : String) (hne : k ≠ "iscomplete") :
    ∃ t, (lookupArg args k).getD (ArgVal.str d) = ArgVal.str t := by
  rcases hl : lookupArg args k with _ | v
  · exact ⟨d, rfl⟩
  · rcases valid_lookup args hv k v hl with ⟨t, ht⟩ | ⟨hk1, _⟩
    · exact ⟨t, by simp [ht]⟩
    · exact absurd hk1 hne

theorem validArgList_setArg (args : Args) (h : ValidArgList args) (k : String)
    (t : String) : ValidArgList (setArg args k (.str t)) := by
  intro kv hkv
  unfold setArg at hkv
  by_cases hany : (args.any fun kv => kv.1 = k) = true
  · rw [if_pos hany] at hkv
    rcases List.mem_map.mp hkv with ⟨kv₀, hkv₀, heq⟩
    by_cases hk0 : kv₀.1 = k
    · rw [if_pos hk0] at heq
      exact Or.inl ⟨t, by rw [← heq]⟩
    · rw [if_neg hk0] at heq
      exact heq ▸ h kv₀ hkv₀
  · rw [if_neg hany] at hkv
    rcases List.mem_append.mp hkv with h1 | h1
    · exact h kv h1
    · have : kv = (k, ArgVal.str t) := by simpa using h1
      exact Or.inl ⟨t, by rw [this]⟩

theorem find?_map_set (k : String) (v : ArgVal) :
    ∀ args : Args, (args.any fun kv => kv.1 = k) = true →
      ((args.map fun kv => if kv.1 = k then (k, v) else kv).find?
        fun kv => kv.1 = k) = some (k, v)
  | [], h => by simp at h
  | kv :: rest, h => by
    by_cases hk : kv.1 = k
    · simp [List.find?, hk]
    · have h' : (rest.any fun kv => kv.1 = k) = true := by
        simpa [hk] using h
      simp only [List.map_cons, if_neg hk]
      rw [List.find?_cons_of_neg _ (by simpa using hk)]
      exact find?_map_set k v rest h'

theorem lookupArg_setArg (args : Args) (k : String) (v : ArgVal) :
    lookupArg (setArg args k v) k = some v := by
  unfold lookupArg setArg
  by_cases hany : (args.any fun kv => kv.1 = k) = true
  · rw [if_pos hany, find?_map_set k v args hany]
    rfl
  · rw [if_neg hany]
    have hnone : (args.find? fun kv => kv.1 = k) = none := by
      rw [List.find?_eq_none]
      intro kv hkv hk
      exact hany (List.any_eq_true.mpr ⟨kv, hkv, by simpa using hk⟩)
    rw [List.find?_append, hnone]
    simp [List.find?]

/-- Every registered tool, on a valid arguments mapping, produces exactly one
text content item (either the missing-parameter error text or the JSON
serialization of the handler result) — and in particular never raises. -/
theorem hct_valid_singleton (b : Backend) (s : SrvState) (name : String)
    (arguments : Option Args) (hname : name ∈ registeredTools)
    (hv : ValidArgs arguments) :
    ∃ c, (handle_call_tool b s name arguments).1 = .ok [c] := by
  have hname' : name = "get_trading_dates" ∨ name = "get_stock_list" ∨
      name = "get_instrument_detail" ∨ name = "get_history_market_data" ∨
      name = "get_latest_market_data" ∨ name = "get_full_market_data" ∨
      name = "create_chart_panel" ∨ name = "create_custom_layout" := by
    simpa [registeredTools] using hname
  rcases hname' with rfl | rfl | rfl | rfl | rfl | rfl | rfl | rfl
  · obtain ⟨t, ht⟩ := argOpt_getD_str arguments hv "market" "SH" (by decide)
    simp only [handle_call_tool, ht]
    exact ⟨_, rfl⟩
  · obtain ⟨t, ht⟩ := argOpt_getD_str arguments hv "sector" "沪深A股" (by decide)
    simp only [handle_call_tool, ht]
    exact ⟨_, rfl⟩
  · rcases ho : argOpt arguments "code" with _ | v
    · refine ⟨missingParamMsg "code", ?_⟩
      simp only [handle_call_tool, ho]
      rfl
    · obtain ⟨t, rfl⟩ := argOpt_some_str arguments hv "code" v ho (by decide)
      simp only [handle_call_tool, ho]
      exact ⟨_, rfl⟩
  · rcases ho : argOpt arguments "codes" with _ | v
    · refine ⟨missingParamMsg "codes", ?_⟩
      simp only [handle_call_tool, ho]
      rfl
    · obtain ⟨tc, rfl⟩ := argOpt_some_str arguments hv "codes" v ho (by decide)
      obtain ⟨tf, htf⟩ := getD_str_of_valid _ hv "fields" "" (by decide)
      obtain ⟨tp, htp⟩ := getD_str_of_valid _ hv "period" "1d" (by decide)
      obtain ⟨ts, hts⟩ := getD_str_of_valid _ hv "start_date" "" (by decide)
      obtain ⟨te, hte⟩ := getD_str_of_valid _ hv "end_date" "" (by decide)
      simp only [handle_call_tool, ho, htf, htp, hts, hte]
      exact ⟨_, rfl⟩
  · rcases ho : argOpt arguments "codes" with _ | v
    · refine ⟨missingParamMsg "codes", ?_⟩
      simp only [handle_call_tool, ho]
      rfl
    · obtain ⟨tc, rfl⟩ := argOpt_some_str arguments hv "codes" v ho (by decide)
      obtain ⟨tp, htp⟩ := getD_str_of_valid _ hv "period" "1d" (by decide)
      simp only [handle_call_tool, ho, htp]
      exact ⟨_, rfl⟩
  · rcases ho : argOpt arguments "codes" with _ | v
    · refine ⟨missingParamMsg "codes", ?_⟩
      simp only [handle_call_tool, ho]
      rfl
    · obtain ⟨tc, rfl⟩ := argOpt_some_str arguments hv "codes" v ho (by decide)
      obtain ⟨tf, htf⟩ := getD_str_of_valid _ hv "fields" "" (by decide)
      obtain ⟨tp, htp⟩ := getD_str_of_valid _ hv "period" "1d" (by decide)
      obtain ⟨ts, hts⟩ := getD_str_of_valid _ hv "start_date" "" (by decide)
      obtain ⟨te, hte⟩ := getD_str_of_valid _ hv "end_date" "" (by decide)
      simp only [handle_call_tool, ho, htf, htp, hts, hte]
      exact ⟨_, rfl⟩
  · rcases hc : lookupArg (arguments.getD []) "codes" with _ | v
    · have hset := lookupArg_setArg (arguments.getD []) "codes"
        (.str (resolveChartCodes b s).1)
      have hvset := validArgList_setArg _ hv "codes" (resolveChartCodes b s).1
      obtain ⟨tp, htp⟩ := getD_str_of_valid _ hvset "period" "1d" (by decide)
      obtain ⟨ti, hti⟩ := getD_str_of_valid _ hvset "indicators" "ma" (by decide)
      obtain ⟨tr, htr⟩ := getD_str_of_valid _ hvset "params" "5,10,20" (by decide)
      simp only [handle_call_tool, hc, if_true, if_false, hset, htp, hti, htr]
      exact ⟨_, rfl⟩
    · obtain ⟨t, rfl⟩ : ∃ t, v = ArgVal.str t := by
        rcases valid_lookup _ hv "codes" v hc with h | ⟨h1, _⟩
        · exact h
        · exact absurd h1 (by decide)
      by_cases ht0 : t = ""
      · subst ht0
        have hset := lookupArg_setArg (arguments.getD []) "codes"
          (.str (resolveChartCodes b s).1)
        have hvset := validArgList_setArg _ hv "codes" (resolveChartCodes b s).1
        obtain ⟨tp, htp⟩ := getD_str_of_valid _ hvset "period" "1d" (by decide)
        obtain ⟨ti, hti⟩ := getD_str_of_valid _ hvset "indicators" "ma" (by decide)
        obtain ⟨tr, htr⟩ := getD_str_of_valid _ hvset "params" "5,10,20" (by decide)
        simp only [handle_call_tool, hc, ArgVal.falsy, decide_True, if_true, if_false,
          hset, htp, hti, htr]
        exact ⟨_, rfl⟩
      · obtain ⟨tp, htp⟩ := getD_str_of_valid _ hv "period" "1d" (by decide)
        obtain ⟨ti, hti⟩ := getD_str_of_valid _ hv "indicators" "ma" (by decide)
        obtain ⟨tr, htr⟩ := getD_str_of_valid _ hv "params" "5,10,20" (by decide)
        simp only [handle_call_tool, hc, ArgVal.falsy, decide_eq_false ht0, if_true,
          if_false, Bool.false_eq_true, htp, hti, htr]
        exact ⟨_, rfl⟩
  · rcases hc : lookupArg (arguments.getD []) "codes" with _ | v
    · have hset := lookupArg_setArg (arguments.getD []) "codes"
        (.str (resolveChartCodes b s).1)
      have hvset := validArgList_setArg _ hv "codes" (resolveChartCodes b s).1
      obtain ⟨tp, htp⟩ := getD_str_of_valid _ hvset "period" "1d" (by decide)
      obtain ⟨ti, hti⟩ := getD_str_of_valid _ hvset "indicator_name" "ma" (by decide)
      obtain ⟨tn, htn⟩ := getD_str_of_valid _ hvset "param_names" "n1,n2,n3" (by decide)
      obtain ⟨tr, htr⟩ := getD_str_of_valid _ hvset "param_values" "5,10,20" (by decide)
      simp only [handle_call_tool, hc, if_true, if_false, hset, htp, hti, htn, htr]
      exact ⟨_, rfl⟩
    · obtain ⟨t, rfl⟩ : ∃ t, v = ArgVal.str t := by
        rcases valid_lookup _ hv "codes" v hc with h | ⟨h1, _⟩
        · exact h
        · exact absurd h1 (by decide)
      by_cases ht0 : t = ""
      · subst ht0
        have hset := lookupArg_setArg (arguments.getD []) "codes"
          (.str (resolveChartCodes b s).1)
        have hvset := validArgList_setArg _ hv "codes" (resolveChartCodes b s).1
        obtain ⟨tp, htp⟩ := getD_str_of_valid _ hvset "period" "1d" (by decide)
        obtain ⟨ti, hti⟩ := getD_str_of_valid _ hvset "indicator_name" "ma" (by decide)
        obtain ⟨tn, htn⟩ := getD_str_of_valid _ hvset "param_names" "n1,n2,n3" (by decide)
        obtain ⟨tr, htr⟩ := getD_str_of_valid _ hvset "param_values" "5,10,20" (by decide)
        simp only [handle_call_tool, hc, ArgVal.falsy, decide_True, if_true, if_false,
          hset, htp, hti, htn, htr]
        exact ⟨_, rfl⟩
      · obtain ⟨tp, htp⟩ := getD_str_of_valid _ hv "period" "1d" (by decide)
        obtain ⟨ti, hti⟩ := getD_str_of_valid _ hv "indicator_name" "ma" (by decide)
        obtain ⟨tn, htn⟩ := getD_str_of_valid _ hv "param_names" "n1,n2,n3" (by decide)
        obtain ⟨tr, htr⟩ := getD_str_of_valid _ hv "param_values" "5,10,20" (by decide)
        simp only [handle_call_tool, hc, ArgVal.falsy, decide_eq_false ht0, if_true,
          if_false, Bool.false_eq_true, htp, hti, htn, htr]
        exact ⟨_, rfl⟩

/--
C3: for every tool name outside the eight registered names,
`handle_call_tool` fails with the unknown-tool `ValueError` (the only failure
that propagates) rather than returning content; for every registered name
with valid arguments it returns content and never raises.
-/
theorem c3_unknown_vs_registered (b : Backend) (s : SrvState) (name : String)
    (arguments : Option Args) :
    (name ∉ registeredTools →
      (handle_call_tool b s name arguments).1 =
        .error ("Unknown tool: " ++ name)) ∧
    (name ∈ registeredTools → ValidArgs arguments →
      ∃ cs, (handle_call_tool b s name arguments).1 = .ok cs) := by
  constructor
  · intro h
    have h1 : ¬ name = "get_trading_dates" := fun e => h (by simp [registeredTools, e])
    have h2 : ¬ name = "get_stock_list" := fun e => h (by simp [registeredTools, e])
    have h3 : ¬ name = "get_instrument_detail" := fun e => h (by simp [registeredTools, e])
    have h4 : ¬ name = "get_history_market_data" := fun e => h (by simp [registeredTools, e])
    have h5 : ¬ name = "get_latest_market_data" := fun e => h (by simp [registeredTools, e])
    have h6 : ¬ name = "get_full_market_data" := fun e => h (by simp [registeredTools, e])
    have h7 : ¬ name = "create_chart_panel" := fun e => h (by simp [registeredTools, e])
    have h8 : ¬ name = "create_custom_layout" := fun e => h (by simp [registeredTools, e])
    simp only [handle_call_tool, if_neg h1, if_neg h2, if_neg h3, if_neg h4,
      if_neg h5, if_neg h6, if_neg h7, if_neg h8]
  · intro h hvalid
    obtain ⟨c, hc⟩ := hct_valid_singleton b s name arguments h hvalid
    exact ⟨[c], hc⟩

theorem c3_witness :
    (handle_call_tool dummyBackend ⟨false, []⟩ "nope" Option.none).1 =
      .error ("Unknown tool: " ++ "nope") ∧
    ∃ cs, (handle_call_tool dummyBackend ⟨false, []⟩ "get_trading_dates"
      Option.none).1 = .ok cs :=
  ⟨(c3_unknown_vs_registered dummyBackend ⟨false, []⟩ "nope" Option.none).1
      (by decide),
   (c3_unknown_vs_registered dummyBackend ⟨false, []⟩ "get_trading_dates"
      Option.none).2 (by decide) (fun kv h => absurd h (List.not_mem_nil kv))⟩

/--
C10 (amended): for every registered tool name and every arguments mapping
**whose values are strings (with `iscomplete` also allowed to be boolean)**,
`handle_call_tool` returns a list containing exactly one text content item —
the validation-error text or the JSON serialization of the handler's result.
The restriction is forced by the counterexample: a non-string `codes` value
makes the dispatcher raise (`.split` on a non-string) and return no content
at all.
-/
theorem c10_single_content_item (b : Backend) (s : SrvState) (name : String)
    (arguments : Option Args) (hname : name ∈ registeredTools)
    (hv : ValidArgs arguments) :
    ∃ c, (handle_call_tool b s name arguments).1 = .ok [c] :=
  hct_valid_singleton b s name arguments hname hv

theorem c10_witness :
    ∃ c, (handle_call_tool dummyBackend ⟨false, []⟩ "get_stock_list"
      (some [("sector", ArgVal.str "沪深A股")])).1 = .ok [c] :=
  c10_single_content_item dummyBackend ⟨false, []⟩ "get_stock_list"
    (some [("sector", ArgVal.str "沪深A股")]) (by decide)
    (fun kv h => by
      rcases List.mem_singleton.mp h with rfl
      exact Or.inl ⟨"沪深A股", rfl⟩)

/--
C10 counterexample: with the registered name `get_history_market_data` and
the arguments mapping `{"codes": 123}` (a non-string value), the dispatcher
raises `AttributeError` at `codes_str.split(",")` — the call returns **no**
content item, refuting "for every registered tool name and every arguments
mapping, handle_call_tool returns a list containing exactly one text-content
item".
-/
theorem c10_counterexample :
    (handle_call_tool dummyBackend ⟨false, []⟩ "get_history_market_data"
      (some [("codes", ArgVal.int 123)])).1 = .error "AttributeError: split" := by
  rfl

end XTQuantAI
